import Mathlib

/-!
Verification of the symbol-resolution and metadata-persistence core of the
Yagi decompiler plugin (`src/yagi/src/idasymbol.cc`), as a shallow embedding.

External collaborators (the IDA database, the netnode store, the demangler,
the type parser) are modelled as explicit parameters, following the spec's
collaborator interfaces; the functions of `idasymbol.cc` are translated
statement by statement.  Machine integers (`ea_t`, `uval_t`, `uint64_t`) are
modelled as `Nat` reduced modulo `2^64` (or `2^32`) exactly where the C++
performs fixed-width arithmetic.
-/

namespace Yagi

/-- `2^64`, the modulus of `ea_t`/`uval_t`/`uint64_t` arithmetic. -/
def mod64 : Nat := 2 ^ 64

/-- `2^32`, the modulus of `uint32_t` arithmetic. -/
def mod32 : Nat := 2 ^ 32

/-- Unsigned 64-bit subtraction `a - b`, wrapping modulo `2^64` as in C++. -/
def sub64 (a b : Nat) : Nat := (a % mod64 + (mod64 - b % mod64)) % mod64

/-- A stack-frame member as enumerated from the IDA frame structure:
its declared name (`get_struc_name(member.id, STRNFL_REGEX)`) and its
member offset (`member.get_soff()`, a `uval_t`). -/
structure FrameMember where
  name : String
  soff : Nat

/-- The parts of an IDA `func_t` and its frame used by `findStackVar`:
`frsize` (size of local variables), `frregs` (size of saved registers),
and the frame members in declared order. -/
structure IdaFunc where
  frsize : Nat
  frregs : Nat
  members : List FrameMember

/-- Drop everything up to and including the first `'.'` of a character list. -/
def dropThroughDot : List Char → List Char
  | [] => []
  | c :: rest => if c = '.' then rest else dropThroughDot rest

/-- Embeds the name post-processing of `findStackVar`:
`pp = name.find(".")`; when a dot exists return `name.substr(pp + 1)`,
otherwise return `name` unchanged. -/
def stripDot (name : String) : String :=
  if name.data.contains '.' then String.mk (dropThroughDot name.data) else name

/-- The member test of `findStackVar`:
`sofset = member.get_soff() - (idaFunc->frsize + idaFunc->frregs)` in
`uval_t` (64-bit) arithmetic, then
`sofset == offset || (addrSize == 4 && (uint32_t)sofset == (uint32_t)offset)`. -/
def stackMatch (frsize frregs offset addrSize : Nat) (m : FrameMember) : Bool :=
  let sofset := sub64 m.soff (frsize + frregs)
  decide (sofset = offset % mod64) ||
    (decide (addrSize = 4) && decide (sofset % mod32 = offset % mod32))

/-- The `for` loop of `IdaFunctionSymbolInfo::findStackVar`, walking the
frame members in declared order and returning the processed name of the
first member passing `stackMatch`. -/
def findStackVarGo (frsize frregs offset addrSize : Nat) :
    List FrameMember → Option String
  | [] => none
  | m :: rest =>
    if stackMatch frsize frregs offset addrSize m then some (stripDot m.name)
    else findStackVarGo frsize frregs offset addrSize rest

/-- `IdaFunctionSymbolInfo::findStackVar(offset, addrSize)`
(`src/yagi/src/idasymbol.cc:159-179`). -/
def findStackVar (f : IdaFunc) (offset addrSize : Nat) : Option String :=
  findStackVarGo f.frsize f.frregs offset addrSize f.members

/-- Spec-side rendering of the member match of `findStackVar`, following the
spec's words: `normalizedOffset = memberOffset − (frameLocalSize +
savedRegisterSize)`; a member matches if `normalizedOffset == frameOffset`
exactly, or — only when `addressWidth == 4` — if both values truncated to
32 bits are equal. -/
def specStackMatch (f : IdaFunc) (frameOffset addressWidth : Nat)
    (m : FrameMember) : Bool :=
  let normalizedOffset := sub64 m.soff (f.frsize + f.frregs)
  decide (normalizedOffset = frameOffset % mod64) ||
    (decide (addressWidth = 4) &&
      decide (normalizedOffset % mod32 = frameOffset % mod32))

/-- Spec-side rendering of the returned name: the member's declared name
with any prefix up to and including the first `.` removed (keep the suffix;
if no `.` is present, the full name unchanged). -/
def specStripName (name : String) : String :=
  match name.data.dropWhile (fun c => c != '.') with
  | [] => name
  | _ :: suffix => String.mk suffix

/-- Spec-side rendering of `findStackVar`: the first frame member in
declared order matching `specStackMatch`, post-processed by
`specStripName`; empty when no member matches. -/
def specFindStackVar (f : IdaFunc) (frameOffset addressWidth : Nat) :
    Option String :=
  (f.members.find? (specStackMatch f frameOffset addressWidth)).map
    (fun m => specStripName m.name)

lemma dropWhile_ne_dot (l : List Char) :
    List.dropWhile (fun c => c != '.') l =
      if l.contains '.' then '.' :: dropThroughDot l else [] := by
  induction l with
  | nil => simp
  | cons c rest ih =>
    by_cases hc : c = '.'
    · subst hc
      simp [List.dropWhile, dropThroughDot]
    · have hcb : (c != '.') = true := by simp [bne, hc]
      have hdc : ('.' = c) = False := eq_false (fun h => hc h.symm)
      simp [List.dropWhile, hcb, dropThroughDot, hc, hdc, ih]

lemma stripDot_eq_specStripName (s : String) : stripDot s = specStripName s := by
  unfold stripDot specStripName
  rw [dropWhile_ne_dot]
  by_cases h : '.' ∈ s.data
  · simp [h]
  · simp [h]

lemma findStackVarGo_eq_find? (frsize frregs offset addrSize : Nat)
    (l : List FrameMember) :
    findStackVarGo frsize frregs offset addrSize l =
      (l.find? (stackMatch frsize frregs offset addrSize)).map
        (fun m => stripDot m.name) := by
  induction l with
  | nil => simp [findStackVarGo]
  | cons m rest ih =>
    by_cases h : stackMatch frsize frregs offset addrSize m
    · simp [findStackVarGo, h, List.find?_cons_of_pos]
    · have hb : stackMatch frsize frregs offset addrSize m = false := by
        simpa using h
      simp [findStackVarGo, hb, List.find?_cons_of_neg, ih]

/-- **C1.** `findStackVar(frameOffset, addressWidth)` walks the frame members
in declared order, computes for each member
`normalizedOffset = memberOffset - (frameLocalSize + savedRegisterSize)`,
and returns the first member for which `normalizedOffset` equals
`frameOffset` exactly or, only when `addressWidth == 4`, for which the two
values truncated to 32 bits are equal; the returned name has any prefix up
to and including the first `.` removed (the full name if it contains no
`.`), and the result is empty when no member matches. -/
theorem findStackVar_spec (f : IdaFunc) (frameOffset addressWidth : Nat) :
    findStackVar f frameOffset addressWidth =
      specFindStackVar f frameOffset addressWidth := by
  unfold findStackVar specFindStackVar
  rw [findStackVarGo_eq_find?]
  have hmatch : stackMatch f.frsize f.frregs frameOffset addressWidth =
      specStackMatch f frameOffset addressWidth := rfl
  rw [hmatch]
  rcases h : (f.members.find? (specStackMatch f frameOffset addressWidth)) with _ | m
  · simp
  · simp [stripDot_eq_specStripName]

/-! ## Cross references and `isLabel` -/

/-- The cross-reference type codes inspected by `isLabel`: `fl_JN` is a
direct near jump; `fl_CN`/`fl_CF` are near/far calls; `dr_O` stands for the
data-reference codes; `flOther` for the remaining code-flow codes. -/
inductive XrefType where
  | fl_JN
  | fl_CN
  | fl_CF
  | dr_O
  | flOther
  deriving DecidableEq

/-- One entry of the `xrefblk_t` iteration: the `iscode` flag and the
reference type code. -/
structure Xref where
  iscode : Bool
  typ : XrefType
  deriving DecidableEq

/-- `xr.type == fl_JN`. -/
def isJN : XrefType → Bool
  | XrefType.fl_JN => true
  | _ => false

/-- `IdaSymbolInfo::isLabel()` (`src/yagi/src/idasymbol.cc:84-98`), over the
ordered sequence of incoming cross references (`XREF_ALL`): break (and
return `false`) at the first reference with `iscode == 0`; skip a code
reference whose type is not `fl_JN`; return `true` at the first `fl_JN`
code reference. -/
def isLabel : List Xref → Bool
  | [] => false
  | x :: rest =>
    if x.iscode = false then false
    else if isJN x.typ = false then isLabel rest
    else true

/-- The first incoming code reference, in reference order. -/
def firstCodeRef (xs : List Xref) : Option Xref := xs.find? (fun x => x.iscode)

/-! ## Segments and `isReadOnly` -/

/-- `SEGPERM_EXEC` of the IDA SDK segment permission bits. -/
def SEGPERM_EXEC : Nat := 1

/-- `SEGPERM_WRITE` of the IDA SDK segment permission bits. -/
def SEGPERM_WRITE : Nat := 2

/-- `SEGPERM_READ` of the IDA SDK segment permission bits. -/
def SEGPERM_READ : Nat := 4

/-- A segment as seen by `isReadOnly`: its name (`get_segm_name`) and its
permission bits (`segment_t::perm`). -/
structure Segment where
  name : String
  perm : Nat

/-- The body of `IdaSymbolInfo::isReadOnly()` on a segment that was found:
`get_segm_name` succeeds, the name is compared with `".data"`, and
otherwise `seg->perm == SEGPERM_READ || seg->perm == SEGPERM_READ +
SEGPERM_EXEC` decides. -/
def isReadOnlySeg (seg : Segment) : Bool :=
  if seg.name = ".data" then true
  else decide (seg.perm = SEGPERM_READ) ||
    decide (seg.perm = SEGPERM_READ + SEGPERM_EXEC)

/-- `IdaSymbolInfo::isReadOnly()` (`src/yagi/src/idasymbol.cc:101-115`) over
the result of `getseg(m_ea)`.  When `getseg` returns null the source
dereferences the null segment (`seg->perm`) with no guard; that undefined
branch is modelled as `none`. -/
def isReadOnly : Option Segment → Option Bool
  | none => none
  | some seg => some (isReadOnlySeg seg)

/-! ## Functions, `isFunction` and `getFunctionSize` -/

/-- The address range of an IDA `func_t`: `start_ea` and `end_ea`. -/
structure FuncRange where
  start_ea : Nat
  end_ea : Nat

/-- `IdaSymbolInfo::isFunction()` (`src/yagi/src/idasymbol.cc:48-52`), over
`get_func` modelled as a map from an address to the function containing it:
true iff `get_func(m_ea) != nullptr && idaFunc->start_ea == m_ea`. -/
def isFunction (get_func : Nat → Option FuncRange) (ea : Nat) : Bool :=
  match get_func ea with
  | none => false
  | some f => decide (f.start_ea = ea)

/-- `IdaSymbolInfo::getFunctionSize()` (`src/yagi/src/idasymbol.cc:118-127`):
throws `SymbolIsNotAFunction(m_name)` (modelled as `Except.error` carrying
the name) when `get_func` fails or the entry differs from `m_ea`, otherwise
returns `end_ea - start_ea` in `uint64_t` arithmetic. -/
def getFunctionSize (get_func : Nat → Option FuncRange) (ea : Nat)
    (m_name : String) : Except String Nat :=
  match get_func ea with
  | none => Except.error m_name
  | some f =>
    if f.start_ea = ea then Except.ok (sub64 f.end_ea f.start_ea)
    else Except.error m_name

lemma sub64_eq_sub (a b : Nat) (hba : b ≤ a) (ha : a < mod64) :
    sub64 a b = a - b := by
  have hb : b < mod64 := lt_of_le_of_lt hba ha
  unfold sub64
  rw [Nat.mod_eq_of_lt ha, Nat.mod_eq_of_lt hb]
  have h1 : a + (mod64 - b) = (a - b) + mod64 := by omega
  rw [h1, Nat.add_mod_right, Nat.mod_eq_of_lt (by omega)]

/-! ## Name resolution: `isImport` and `getName` -/

/-- Modelled from the spec: the import-prefix marker convention
(`IMPORT_PREFIX` in `base.hh`, which is not under `src/`); the source
compares the first 6 characters of a name with it and prepends it to the
names of import symbols, matching the 6-character IDA convention
`"__imp_"`. -/
def IMPORT_MARK : String := "__imp_"

/-- `std::string::substr(0, n)`: the first `n` characters (all of them when
the string is shorter). -/
def strTake (s : String) (n : Nat) : String := String.mk (s.data.take n)

/-- `std::string::substr(n)`: everything from position `n` on. -/
def strDrop (s : String) (n : Nat) : String := String.mk (s.data.drop n)

/-- The live database state consulted by `IdaSymbolInfo::getName` and
`isImport` for one symbol: the result of `cleanup_name(&pname, m_ea, ...)`
(`none` when it returns false), the demangler
`demangle_name(·, 0x0EA3BE67)` (`""` when demangling fails), and the
import-module name tables enumerated by `get_import_module_qty` /
`enum_import_names`. -/
structure SymbolDb where
  cleanup : Option String
  demangle : String → String
  imports : List (List String)

/-- `IdaSymbolInfo::isImport()` (`src/yagi/src/idasymbol.cc:55-81`): strip
the import marker when the name is longer than 6 characters and starts with
it, then scan every import module for an exact match. -/
def isImport (db : SymbolDb) (m_name : String) : Bool :=
  let importName :=
    if m_name.data.length > 6 ∧ strTake m_name 6 = IMPORT_MARK
    then strDrop m_name 6 else m_name
  db.imports.any (fun mod => mod.any (fun n => n = importName))

/-- The cleanup step of `getName`
(`if (m_name.substr(0, 4) == "sub_" || !cleanup_name(&pname, ...))
pname = m_name`): the raw name survives unchanged when it is
placeholder-shaped or when the database produces no cleaned form. -/
def cleanPhase (db : SymbolDb) (m_name : String) : String :=
  if strTake m_name 4 = "sub_" then m_name
  else
    match db.cleanup with
    | none => m_name
    | some cleaned => cleaned

/-- The truncation step of `getName`: `pp = idaName.find('(', 0)`, with
`pp = idaName.size()` when there is no parenthesis, then
`idaName.substr(0, pp)` — everything before the first `'('`. -/
def truncAtParen (s : String) : String :=
  String.mk (s.data.takeWhile (fun c => c != '('))

/-- `IdaSymbolInfo::getName()` (`src/yagi/src/idasymbol.cc:130-156`):
cleanup (skipped for `"sub_"`-prefixed names), then demangling under the
fixed dialect; on success the demangled name is truncated at the first
parameter-list parenthesis; finally the import marker is prepended when
`isImport()` holds. -/
def getName (db : SymbolDb) (m_name : String) : String :=
  let pname := cleanPhase db m_name
  let idaName := db.demangle pname
  let pname2 := if idaName ≠ "" then truncAtParen idaName else pname
  if isImport db m_name then IMPORT_MARK ++ pname2 else pname2

/-! ## The netnode store: register variables and symbol types -/

/-- The persistent node store: every key names a netnode, `valstr` of a
node that was never set yields the empty string. -/
def Store : Type := String → String

/-- The store before any save: every `valstr` read yields `""`. -/
def emptyStore : Store := fun _ => ""

/-- `netnode::set` on the node named `k`. -/
def storeSet (st : Store) (k v : String) : Store :=
  fun q => if q = k then v else st q

/-- `netnode::valstr` on the node named `k`. -/
def storeGet (st : Store) (k : String) : String := st k

/-- Modelled from the spec: `to_hex` of `base.hh` (not under `src/`), the
hexadecimal rendering of the function address used in the persisted key. -/
def toHex (n : Nat) : String := String.mk (Nat.toDigits 16 n)

/-- The key built by `findRegVar`/`saveRegVar`:
`"$ " << to_hex(address) << ".yagireg." << name`. -/
def regVarKey (addr : Nat) (name : String) : String :=
  "$ " ++ toHex addr ++ ".yagireg." ++ name

/-- The key built by `findSymbolType`/`saveSymbolType`:
`"$ " << to_hex(address) << ".yagitype." << name`. -/
def typeKey (addr : Nat) (name : String) : String :=
  "$ " ++ toHex addr ++ ".yagitype." ++ name

/-- `IdaFunctionSymbolInfo::saveRegVar` (`src/yagi/src/idasymbol.cc:200-206`). -/
def saveRegVar (st : Store) (addr : Nat) (name value : String) : Store :=
  storeSet st (regVarKey addr name) value

/-- `IdaFunctionSymbolInfo::findRegVar` (`src/yagi/src/idasymbol.cc:182-197`):
read the node's string; `nullopt` when it is empty. -/
def findRegVar (st : Store) (addr : Nat) (name : String) : Option String :=
  let res := storeGet st (regVarKey addr name)
  if res = "" then none else some res

/-- The part of `TypeInfo` consumed by `saveSymbolType`: its serialized
declaration string `getName()`. -/
structure TypeInfo where
  name : String

/-- `MemoryLocation`: accepted by `saveSymbolType` as context; it does not
influence the stored key or value. -/
structure MemoryLocation where
  offset : Nat

/-- `IdaFunctionSymbolInfo::saveSymbolType`
(`src/yagi/src/idasymbol.cc:209-215`): write the serialized declaration
`newType.getName()` at the type key; `loc` is unused. -/
def saveSymbolType (st : Store) (addr : Nat) (name : String)
    (newType : TypeInfo) (loc : MemoryLocation) : Store :=
  storeSet st (typeKey addr name) newType.name

/-- `IdaFunctionSymbolInfo::findSymbolType`
(`src/yagi/src/idasymbol.cc:218-233`): read the node's string; `nullopt`
when empty, otherwise the result of the external parser
`IdaTypeInfoFactory().build_decl` (a parameter of the model). -/
def findSymbolType {α : Type} (build_decl : String → Option α) (st : Store)
    (addr : Nat) (name : String) : Option α :=
  let res := storeGet st (typeKey addr name)
  if res = "" then none else build_decl res

/-! ## Claim theorems -/

/-- **C2 (counterexample).** The claim says `isLabel()` returns false
whenever the first inspected incoming code reference is a call.  On the
reference sequence `[near call, near jump]` the first (inspected) code
reference is the call `fl_CN`, yet `isLabel` skips it (`continue`) and
returns true at the later jump. -/
theorem isLabel_first_code_call_counterexample :
    isLabel [Xref.mk true XrefType.fl_CN, Xref.mk true XrefType.fl_JN] = true ∧
    firstCodeRef [Xref.mk true XrefType.fl_CN, Xref.mk true XrefType.fl_JN] =
      some (Xref.mk true XrefType.fl_CN) ∧
    isJN XrefType.fl_CN = false := by decide

/-- **C2 (amended).** `isLabel()` returns true iff some reference before
the first non-code reference (all of them when every reference is code) is
a direct-jump reference; non-jump code references are skipped, and a
non-code reference or the end of the sequence stops the scan with result
false. -/
theorem isLabel_jump_before_first_noncode (xs : List Xref) :
    isLabel xs = (xs.takeWhile (fun x => x.iscode)).any (fun x => isJN x.typ) := by
  induction xs with
  | nil => simp [isLabel]
  | cons x rest ih =>
    by_cases hc : x.iscode
    · by_cases hj : isJN x.typ = true
      · simp [isLabel, hc, hj, List.takeWhile]
      · have hj' : isJN x.typ = false := by simpa using hj
        simp [isLabel, hc, hj', List.takeWhile, ih]
    · have hc' : x.iscode = false := by simpa using hc
      simp [isLabel, hc', List.takeWhile]

/-- **C3 (counterexample).** The claim says neither cleanup nor demangling
alters a placeholder-shaped name.  The source only skips the cleanup step
for a `"sub_"`-prefixed name and still submits it to the demangler: with a
demangler that resolves `"sub_401000"` to `"Foo::bar(int)"`, `getName`
returns `"Foo::bar"`, not the raw name (with or without import marker). -/
theorem getName_placeholder_counterexample :
    strTake "sub_401000" 4 = "sub_" ∧
    getName (SymbolDb.mk none (fun _ => "Foo::bar(int)") []) "sub_401000" =
      "Foo::bar" ∧
    "Foo::bar" ≠ "sub_401000" ∧
    "Foo::bar" ≠ IMPORT_MARK ++ "sub_401000" := by decide

/-- **C3 (amended).** For a placeholder-shaped raw name (prefix `"sub_"`),
the cleanup step is skipped, so the raw name itself is submitted to the
demangler; whenever demangling of it fails or yields nothing, `getName`
returns the raw name unchanged aside from the optional import marker. -/
theorem getName_placeholder_keeps_raw (db : SymbolDb) (m_name : String)
    (h1 : strTake m_name 4 = "sub_") (h2 : db.demangle m_name = "") :
    getName db m_name =
      if isImport db m_name then IMPORT_MARK ++ m_name else m_name := by
  simp [getName, cleanPhase, h1, h2]

/-- Witness for `getName_placeholder_keeps_raw` at `"sub_401000"` with a
demangler that rejects everything and an empty import table. -/
theorem getName_placeholder_keeps_raw_witness :
    getName (SymbolDb.mk none (fun _ => "") []) "sub_401000" = "sub_401000" := by
  rw [getName_placeholder_keeps_raw (SymbolDb.mk none (fun _ => "") [])
    "sub_401000" (by decide) rfl]
  decide

/-- **C4 (counterexample).** The claim quantifies over every value, but
saving the empty string is indistinguishable from never writing:
`saveRegVar("v1", "")` followed by `findRegVar("v1")` yields empty, not the
stored empty string. -/
theorem findRegVar_empty_value_counterexample :
    findRegVar (saveRegVar emptyStore 4198400 "v1" "") 4198400 "v1" = none ∧
    findRegVar (saveRegVar emptyStore 4198400 "v1" "") 4198400 "v1" ≠
      some "" := by decide

/-- **C4 (amended).** For every non-empty value, `saveRegVar(name, value)`
followed by `findRegVar(name)` on the same function returns that value, and
`findRegVar` on a name that was never written returns empty. -/
theorem saveRegVar_findRegVar_roundtrip (st : Store) (addr : Nat)
    (name value : String) (h : value ≠ "") :
    findRegVar (saveRegVar st addr name value) addr name = some value ∧
    findRegVar emptyStore addr name = none := by
  constructor
  · simp [findRegVar, saveRegVar, storeSet, storeGet, h]
  · simp [findRegVar, emptyStore, storeGet]

/-- Witness for `saveRegVar_findRegVar_roundtrip`: storing `"eax"` under
`"v1"` for the function at `0x401000` and reading it back. -/
theorem saveRegVar_findRegVar_roundtrip_witness :
    findRegVar (saveRegVar emptyStore 4198400 "v1" "eax") 4198400 "v1" =
      some "eax" :=
  (saveRegVar_findRegVar_roundtrip emptyStore 4198400 "v1" "eax" (by decide)).1

/-- **C5 (counterexample).** The claim quantifies over every pair of types,
but when `T2` serializes to the empty declaration string, the read after
the two saves returns no descriptor at all — neither one matching `T2` nor
the still-recoverable `T1` (saving only `T1` would have parsed to
`some "int"`). -/
theorem findSymbolType_empty_serialization_counterexample :
    findSymbolType (fun s => some s)
      (saveSymbolType
        (saveSymbolType emptyStore 4198400 "v1" (TypeInfo.mk "int")
          (MemoryLocation.mk 0))
        4198400 "v1" (TypeInfo.mk "") (MemoryLocation.mk 8))
      4198400 "v1" = none ∧
    findSymbolType (fun s => some s)
      (saveSymbolType emptyStore 4198400 "v1" (TypeInfo.mk "int")
        (MemoryLocation.mk 0))
      4198400 "v1" = some "int" := by decide

/-- **C5 (amended).** Writes to the same `{type, functionAddress, name}`
key are last-writer-wins: after `saveSymbolType(name, T1, loc)` then
`saveSymbolType(name, T2, loc')`, `findSymbolType(name)` is determined by
`T2` alone — the parser's result on `T2`'s serialized declaration when that
serialization is non-empty, and empty when it is empty. -/
theorem saveSymbolType_last_writer_wins {α : Type}
    (build_decl : String → Option α) (st : Store) (addr : Nat)
    (name : String) (T1 T2 : TypeInfo) (l1 l2 : MemoryLocation) :
    findSymbolType build_decl
      (saveSymbolType (saveSymbolType st addr name T1 l1) addr name T2 l2)
      addr name =
      if T2.name = "" then none else build_decl T2.name := by
  simp [findSymbolType, saveSymbolType, storeSet, storeGet]

/-- **C6.** For every address lying in some segment, `isReadOnly()` is true
iff the segment's name is the conventional read-only data name `".data"`
(regardless of permission bits, including writable ones), or the permission
bits are exactly read-only, or exactly read+execute with no write bit. -/
theorem isReadOnly_iff (seg : Segment) :
    isReadOnly (some seg) = some true ↔
      seg.name = ".data" ∨ seg.perm = SEGPERM_READ ∨
        seg.perm = SEGPERM_READ + SEGPERM_EXEC := by
  unfold isReadOnly isReadOnlySeg
  by_cases h : seg.name = ".data"
  · simp [h]
  · simp [h]

/-- **C7.** `getFunctionSize()` raises `SymbolIsNotAFunction` exactly when
`isFunction()` is false against the same database state, and otherwise
returns `end − start` of the function whose entry equals the address. -/
theorem getFunctionSize_spec (get_func : Nat → Option FuncRange) (ea : Nat)
    (m_name : String) :
    (getFunctionSize get_func ea m_name = Except.error m_name ↔
      isFunction get_func ea = false) ∧
    (∀ f, get_func ea = some f → f.start_ea = ea →
      f.start_ea ≤ f.end_ea → f.end_ea < mod64 →
      getFunctionSize get_func ea m_name = Except.ok (f.end_ea - f.start_ea)) := by
  constructor
  · unfold getFunctionSize isFunction
    rcases h : get_func ea with _ | f
    · simp
    · by_cases hs : f.start_ea = ea
      · simp [hs]
      · simp [hs]
  · intro f hf hs hle hlt
    subst hs
    simp [getFunctionSize, hf, sub64_eq_sub f.end_ea f.start_ea hle hlt]

/-- Witness for `getFunctionSize_spec`: the function `[100, 160)` queried
at its entry yields size `60`. -/
theorem getFunctionSize_spec_witness :
    getFunctionSize
      (fun a => if a = 100 then some (FuncRange.mk 100 160) else none)
      100 "f" = Except.ok 60 :=
  (getFunctionSize_spec
      (fun a => if a = 100 then some (FuncRange.mk 100 160) else none)
      100 "f").2 (FuncRange.mk 100 160) rfl rfl (by decide) (by decide)

/-- **C8.** Whenever the (possibly cleaned) name demangles successfully
under the fixed default dialect, `getName()` returns the demangled name
truncated at the first parameter-list opening parenthesis, with the import
marker prepended when `isImport()` is true. -/
theorem getName_demangle_truncates (db : SymbolDb) (m_name : String)
    (h : db.demangle (cleanPhase db m_name) ≠ "") :
    getName db m_name =
      if isImport db m_name
      then IMPORT_MARK ++ truncAtParen (db.demangle (cleanPhase db m_name))
      else truncAtParen (db.demangle (cleanPhase db m_name)) := by
  simp [getName, h]

/-- Witness for `getName_demangle_truncates`: a name demangling to
`"Foo::bar(int)"` resolves to `"Foo::bar"`. -/
theorem getName_demangle_truncates_witness :
    getName
      (SymbolDb.mk none (fun s => if s = "m" then "Foo::bar(int)" else "") [])
      "m" = "Foo::bar" := by
  rw [getName_demangle_truncates
    (SymbolDb.mk none (fun s => if s = "m" then "Foo::bar(int)" else "") [])
    "m" (by decide)]
  decide

/-- **C9.** Saving an empty-string value makes the key indistinguishable
from one never written: after `saveRegVar(name, "")`, `findRegVar(name)`
returns empty rather than the empty string, and `findSymbolType(name)`
returns empty after a type with empty serialized declaration is saved; the
read equals the read from a store never written. -/
theorem empty_value_reads_as_unset {α : Type} (build_decl : String → Option α)
    (st : Store) (addr : Nat) (name : String) (T : TypeInfo)
    (loc : MemoryLocation) (h : T.name = "") :
    findRegVar (saveRegVar st addr name "") addr name = none ∧
    findSymbolType build_decl (saveSymbolType st addr name T loc) addr name =
      none ∧
    findRegVar (saveRegVar st addr name "") addr name =
      findRegVar emptyStore addr name := by
  refine ⟨?_, ?_, ?_⟩
  · simp [findRegVar, saveRegVar, storeSet, storeGet]
  · simp [findSymbolType, saveSymbolType, storeSet, storeGet, h]
  · simp [findRegVar, saveRegVar, storeSet, storeGet, emptyStore]

/-- Witness for `empty_value_reads_as_unset` at the function address `0`,
variable `"x"`, and the empty-named type. -/
theorem empty_value_reads_as_unset_witness :
    findRegVar (saveRegVar emptyStore 0 "x" "") 0 "x" = none :=
  (empty_value_reads_as_unset (fun s : String => some s) emptyStore 0 "x"
    (TypeInfo.mk "") (MemoryLocation.mk 0) rfl).1

/-- **C10.** `isReadOnly()` is total exactly on addresses lying in some
segment: the source dereferences the segment-lookup result unguarded, so
the undefined branch (modelled as `none`) is reached precisely when the
lookup returns nothing. -/
theorem isReadOnly_defined_iff_in_segment (seg : Option Segment) :
    (isReadOnly seg).isSome ↔ seg.isSome := by
  cases seg <;> simp [isReadOnly]

end Yagi
